import Mathlib

/-! bearer-go: the transport interceptor and the log shipper.

A shallow embedding of `agent.go` (package `bearer`):

* `goHeadersToBearerHeaders` (agent.go:43-51),
* `Agent.logger`, `Agent.transport` (agent.go:80-92),
* `Agent.logRecords` (agent.go:94-156),
* `Agent.RoundTrip` (agent.go:15-41).

Conventions of the embedding.

* A Go `map[string]V` is an association list `List (String × V)`; the order of the
  list is the (unspecified) order in which `range` visits the map.  A list that stands
  for a map has pairwise different keys (`GoMap.WF`).
* A run-time panic is a value of `GoPanic`; a function that can panic returns
  `Except GoPanic _`.
* The outside world (network, clock, log sink) is an explicit state of an arbitrary
  type `σ`.  A transport is a function of the request and the state.  `World σ`
  adds the list of requests handed to a transport so far, so that the number and the
  content of the transport calls can be stated.
* Go `int` is taken to be 64 bits wide (`wrapInt64`).
-/

namespace Bearer

/-! ## Go values -/

/-- A Go run-time panic. -/
inductive GoPanic where
  /-- Nil pointer dereference. -/
  | nilDeref
  /-- Index `idx` out of range for a slice of length `len`. -/
  | indexOutOfRange (idx len : Nat)
  deriving DecidableEq

/-- A Go `error` value. `wrap pfx e` is `fmt.Errorf(pfx + ": %w", e)`. -/
inductive GoError where
  | mk (msg : String)
  | wrap (pfx : String) (inner : GoError)
  deriving DecidableEq

/-- Go `m[k] = v` on a map held as an association list: the entry of `k` is replaced
when there is one and added otherwise. -/
def GoMap.set {V : Type} : List (String × V) → String → V → List (String × V)
  | [], k, v => [(k, v)]
  | (k', v') :: rest, k, v =>
    if k' = k then (k, v) :: rest else (k', v') :: GoMap.set rest k v

/-- Go `m[k]` with the comma-ok form: the value stored under `k`, if any. -/
def GoMap.get {V : Type} : List (String × V) → String → Option V
  | [], _ => none
  | (k', v') :: rest, k => if k' = k then some v' else GoMap.get rest k

/-- The keys of a map. -/
def GoMap.keys {V : Type} (m : List (String × V)) : List String := m.map Prod.fst

/-- Well-formedness of an association list standing for a Go map: no key twice. -/
def GoMap.WF {V : Type} (m : List (String × V)) : Prop := (GoMap.keys m).Nodup

/-- Type `http.Header`, a `map[string][]string`. -/
abbrev Header := List (String × List String)

/-- The type of `ReportLog.RequestHeaders`, a `map[string]string`. -/
abbrev BearerHeaders := List (String × String)

/-! ## Header normalizer (agent.go:43-51) -/

/-- The `for key, values := range input` loop of `goHeadersToBearerHeaders`, on the
entries still to visit and the map `ret` built so far. `values[0]` panics on an empty
(or nil) slice. -/
def goHeadersToBearerHeaders.loop : Header → BearerHeaders → Except GoPanic BearerHeaders
  | [], ret => .ok ret
  | (key, values) :: rest, ret =>
    match values with
    | [] => .error (GoPanic.indexOutOfRange 0 0)
    | v :: _ => goHeadersToBearerHeaders.loop rest (GoMap.set ret key v)

/-- Function `goHeadersToBearerHeaders` (agent.go:43). -/
def goHeadersToBearerHeaders (input : Header) : Except GoPanic BearerHeaders :=
  goHeadersToBearerHeaders.loop input []

/-- Every key of the header collection carries at least one value. -/
def Header.AllNonempty (h : Header) : Prop := ∀ kv ∈ h, kv.2 ≠ []

instance (h : Header) : Decidable (Header.AllNonempty h) := by
  unfold Header.AllNonempty; infer_instance

instance {V : Type} (m : List (String × V)) : Decidable (GoMap.WF m) := by
  unfold GoMap.WF; infer_instance

/-! ## HTTP values -/

/-- What `RoundTrip` reads of a `*url.URL`: the fields `Scheme` and `Path`, and the
results of the library methods `Hostname()` and `String()`. -/
structure URL where
  Scheme : String
  Path : String
  Hostname : String
  String : String
  deriving DecidableEq

/-- Type `http.Request`: method, URL, headers, and the content of the body stream. -/
structure Request where
  Method : String
  URL : URL
  Header : Header
  Body : String
  deriving DecidableEq

/-- Type `http.Response`: status code, headers, and the body. `Body` is an
`io.ReadCloser` interface value: `none` is a nil `Body`, `some s` a stream with
content `s`. -/
structure Response where
  StatusCode : Int
  Header : Header
  Body : Option String
  deriving DecidableEq

/-- The pair `(*http.Response, error)` a `RoundTripper` returns; either component
may be nil. -/
abbrev RoundTripResult := Option Response × Option GoError

/-- Interface `http.RoundTripper`: one request in the current outside world gives a
result and the next outside world. -/
abbrev RoundTripper (σ : Type) := Request → σ → RoundTripResult × σ

/-- The part of `*zap.Logger` used here: `Warn(msg, zap.Error(err))` acting on the
outside world. -/
structure Logger (σ : Type) where
  Warn : String → GoError → σ → σ

/-- Function `zap.NewNop()`: a logger that never writes. -/
def Logger.NewNop {σ : Type} : Logger σ := ⟨fun _ _ s => s⟩

/-! ## Data model -/

/-- Modelled from the spec: the type `ReportLog` is declared outside `agent.go`; its
fields are those of the Report Record of the data model, which are also the fields the
composite literals of `agent.go:21-35` and `bearer_test.go:39-53` set. -/
structure ReportLog where
  Protocol : String
  Path : String
  Hostname : String
  Method : String
  StartedAt : Int
  EndedAt : Int
  Type_ : String
  StatusCode : Int
  URL : String
  RequestHeaders : BearerHeaders
  RequestBody : String
  ResponseHeaders : BearerHeaders
  ResponseBody : String
  deriving DecidableEq

/-- Field `Runtime` of the local type `logsRequest` (agent.go:101-104). -/
structure LogsRuntime where
  Type_ : String
  Version : String
  deriving DecidableEq

/-- Field `Agent` of the local type `logsRequest` (agent.go:105-110). -/
structure LogsAgent where
  Type_ : String
  Version : String
  LogLevel : String
  deriving DecidableEq

/-- The local type `logsRequest` of `logRecords` (agent.go:99-112). -/
structure logsRequest where
  SecretKey : String
  Runtime : LogsRuntime
  Agent : LogsAgent
  Logs : List ReportLog
  deriving DecidableEq

/-- What the package takes from outside `agent.go`.

* `Version`: the package constant `Version`, declared in another file of the package.
* `runtimeVersion`: the result of `runtime.Version()`.
* `jsonMarshal`: `encoding/json.Marshal` on a `logsRequest`.  It returns an error only
  for a value holding a channel, function, complex number, non-finite float, a cycle or
  a failing `Marshaler`; a `logsRequest` holds strings, ints, string maps and slices of
  these, so the error branch of agent.go:121 is never taken and the function is total.
* `now`: the reading `time.Now().UnixNano()` of the wall clock in an outside world,
  an `int64`.
* `DefaultTransport`: the variable `http.DefaultTransport`. -/
structure Platform (σ : Type) where
  Version : String
  runtimeVersion : String
  jsonMarshal : logsRequest → String
  now : σ → { n : Int // -2 ^ 63 ≤ n ∧ n < 2 ^ 63 }
  DefaultTransport : RoundTripper σ

/-- Modelled from the spec: the type `Agent` is declared outside `agent.go`; its
fields are the secret key (empty: reporting disabled), the optional logger and the
optional wrapped transport, read in `agent.go` as `a.SecretKey`, `a.Logger`,
`a.Transport`. -/
structure Agent (σ : Type) where
  SecretKey : String
  Logger : Option (Bearer.Logger σ)
  Transport : Option (RoundTripper σ)

/-- The outside world together with the requests handed to a transport so far,
oldest first. -/
structure World (σ : Type) where
  ext : σ
  calls : List Request

/-- Method `Agent.logger` (agent.go:80-85). -/
def Agent.logger {σ : Type} (a : Agent σ) : Bearer.Logger σ :=
  match a.Logger with
  | some l => l
  | none => Logger.NewNop

/-- Method `Agent.transport` (agent.go:87-92). -/
def Agent.transport {σ : Type} (P : Platform σ) (a : Agent σ) : RoundTripper σ :=
  match a.Transport with
  | some t => t
  | none => P.DefaultTransport

/-- A call `t.RoundTrip(req)`: the transport acts on the outside world and the call
is recorded. -/
def World.roundTrip {σ : Type} (t : RoundTripper σ) (req : Request) (w : World σ) :
    RoundTripResult × World σ :=
  ((t req w.ext).1, { ext := (t req w.ext).2, calls := w.calls ++ [req] })

/-- A call `l.Warn(msg, zap.Error(err))`. -/
def World.warn {σ : Type} (l : Logger σ) (msg : String) (err : GoError) (w : World σ) :
    World σ :=
  { w with ext := l.Warn msg err w.ext }

/-! ## Machine integers -/

/-- Conversion of an integer to a 64-bit two's complement value. -/
def wrapInt64 (x : Int) : Int := (x + 2 ^ 63) % 2 ^ 64 - 2 ^ 63

/-- The expression `int(t.UnixNano() / 1000000)` of agent.go:26-27 on the reading
`nanos` of `t.UnixNano()`: `int64` division truncates toward zero, and `int` is 64 bits
wide. -/
def unixMillis (nanos : Int) : Int := wrapInt64 (Int.tdiv nanos 1000000)

/-! ## Log shipper (agent.go:94-156) -/

/-- The value `input` of `logRecords` after agent.go:113-118. -/
def logsInput {σ : Type} (P : Platform σ) (a : Agent σ) (records : List ReportLog) :
    logsRequest :=
  { SecretKey := a.SecretKey
    Runtime := { Type_ := "go", Version := P.runtimeVersion }
    Agent := { Type_ := "bearer-go", Version := P.Version, LogLevel := "ALL" }
    Logs := records }

/-- Method `Header.Add(key, value)` for a key already in canonical form: the value is
appended to the values of the key. -/
def Header.Add (h : Header) (key value : String) : Header :=
  GoMap.set h key ((GoMap.get h key).getD [] ++ [value])

/-- The result of `http.NewRequest("POST", "https://agent.bearer.sh/logs", reqBody)`
(agent.go:125): the method and the URL are constants that parse, so the error branch of
agent.go:126 is never taken; the header map is fresh and empty. -/
def newLogsRequest (reqBody : String) : Request :=
  { Method := "POST"
    URL := { Scheme := "https", Path := "/logs", Hostname := "agent.bearer.sh",
             String := "https://agent.bearer.sh/logs" }
    Header := []
    Body := reqBody }

/-- The request `logRecords` hands to the transport (agent.go:120-130). -/
def logsHTTPRequest {σ : Type} (P : Platform σ) (a : Agent σ) (records : List ReportLog) :
    Request :=
  let inputJson := P.jsonMarshal (logsInput P a records)
  let req := newLogsRequest inputJson
  let req := { req with Header := Header.Add req.Header "Accept" "application/json" }
  { req with Header := Header.Add req.Header "Content-Type" "application/json" }

/-- Method `Agent.logRecords` (agent.go:94-156). The result is the returned `error`
(`none` is nil). The statement `defer ret.Body.Close()` (agent.go:135) comes before the
status switch: with no error and a nil response `ret.Body` dereferences nil, and with
a nil `Body` the call of `Close` on a nil interface value panics, whatever the status.
Closing a body that is there leaves the outside world of the embedding as it is. -/
def Agent.logRecords {σ : Type} (P : Platform σ) (a : Agent σ) (records : List ReportLog)
    (w : World σ) : Except GoPanic (Option GoError) × World σ :=
  if records.length < 1 then
    (.ok none, w)
  else
    let req := logsHTTPRequest P a records
    let (r, w1) := World.roundTrip (a.transport P) req w
    match r with
    | (_, some err) => (.ok (some (GoError.wrap "perform logs request" err)), w1)
    | (none, none) => (.error GoPanic.nilDeref, w1)
    | (some ret, none) =>
      match ret.Body with
      | none => (.error GoPanic.nilDeref, w1)
      | some _ =>
        if ret.StatusCode = 200 then
          (.ok none, w1)
        else
          (.ok (some (GoError.mk ("unsupported status code: " ++ toString ret.StatusCode))),
            w1)

/-! ## Transport interceptor (agent.go:15-41) -/

/-- The composite literal of agent.go:21-35, given the two clock readings and the two
normalized header maps. -/
def newRecord (req : Request) (resp : Response) (start end_ : Int)
    (requestHeaders responseHeaders : BearerHeaders) : ReportLog :=
  { Protocol := req.URL.Scheme
    Path := req.URL.Path
    Hostname := req.URL.Hostname
    Method := req.Method
    StartedAt := unixMillis start
    EndedAt := unixMillis end_
    Type_ := "REQUEST_END"
    StatusCode := resp.StatusCode
    URL := req.URL.String
    RequestHeaders := requestHeaders
    RequestBody := ""
    ResponseHeaders := responseHeaders
    ResponseBody := "" }

/-- Method `Agent.RoundTrip` (agent.go:15-41), for a non-nil receiver and a request
with a non-nil `URL`. The result is the returned pair `(resp, err)`, or the panic that
ends the call. With a nil `resp`, `resp.StatusCode` (agent.go:29) dereferences nil.
Where `resp` is nil and a request header key carries no value as well, Go leaves open
which of the two panics ends the call; the embedding reports the nil dereference. -/
def Agent.RoundTrip {σ : Type} (P : Platform σ) (a : Agent σ) (req : Request)
    (w : World σ) : Except GoPanic RoundTripResult × World σ :=
  let start := (P.now w.ext).val
  let (r, w1) := World.roundTrip (a.transport P) req w
  let end_ := (P.now w1.ext).val
  if a.SecretKey ≠ "" then
    match r.1 with
    | none => (.error GoPanic.nilDeref, w1)
    | some resp =>
      match goHeadersToBearerHeaders req.Header with
      | .error p => (.error p, w1)
      | .ok requestHeaders =>
        match goHeadersToBearerHeaders resp.Header with
        | .error p => (.error p, w1)
        | .ok responseHeaders =>
          let record := newRecord req resp start end_ requestHeaders responseHeaders
          match a.logRecords P [record] w1 with
          | (.error p, w2) => (.error p, w2)
          | (.ok (some err), w2) => (.ok r, World.warn a.logger "log records" err w2)
          | (.ok none, w2) => (.ok r, w2)
  else
    (.ok r, w1)

/-! ## Auxiliary definitions for the statements -/

/-- The first value of each entry, in the order of the entries. -/
def firstValues (input : Header) : BearerHeaders :=
  input.map (fun kv => (kv.1, kv.2.headD ""))

/-- The result of `logRecords` on a non-empty sequence, by the result of its transport call. -/
def logRecords.outcome : RoundTripResult → Except GoPanic (Option GoError)
  | (_, some err) => .ok (some (GoError.wrap "perform logs request" err))
  | (none, none) => .error GoPanic.nilDeref
  | (some ret, none) =>
    match ret.Body with
    | none => .error GoPanic.nilDeref
    | some _ =>
      if ret.StatusCode = 200 then .ok none
      else .ok (some (GoError.mk ("unsupported status code: " ++ toString ret.StatusCode)))

/-- The world after the delegate call of `RoundTrip`. -/
def afterDelegate {σ : Type} (P : Platform σ) (a : Agent σ) (req : Request) (w : World σ) :
    World σ :=
  { ext := (a.transport P req w.ext).2, calls := w.calls ++ [req] }

/-- An example platform; an outside world is the wall-clock reading in nanoseconds. -/
def exPlatform : Platform Nat :=
  { Version := "0.1.0"
    runtimeVersion := "go1.15"
    jsonMarshal := fun input => "secretKey=" ++ input.SecretKey
    now := fun s => ⟨((s % 2 ^ 62 : Nat) : Int), by constructor <;> omega⟩
    DefaultTransport := fun _ s => ((none, some (GoError.mk "no network")), s) }

/-- The response of the test server of `TestRoundTrip`. -/
def exResponse : Response :=
  { StatusCode := 200, Header := [("Hello", ["World"])], Body := some "200 OKHello World!" }

/-- The request `GET https://api.example.com/sample`. -/
def exRequest : Request :=
  { Method := "GET"
    URL := { Scheme := "https", Path := "/sample", Hostname := "api.example.com",
             String := "https://api.example.com/sample" }
    Header := [("Accept", ["application/json", "text/plain"])]
    Body := "" }

/-- The same request with a header key that carries no value. -/
def exRequestEmptyValues : Request :=
  { exRequest with Header := [("Accept", ["application/json"]), ("X-Empty", [])] }

/-- A transport that answers the collector host with `collector` after 20 ms and every
other host with `exResponse` after 80 ms. -/
def exTransport (collector : RoundTripResult) : RoundTripper Nat :=
  fun req s =>
    if req.URL.Hostname = "agent.bearer.sh" then (collector, s + 20000000)
    else ((some exResponse, none), s + 80000000)

/-- A transport on which every call fails. -/
def exFailingTransport : RoundTripper Nat :=
  fun _ s => ((none, some (GoError.mk "connection refused")), s + 1000000)

/-- An agent with the given secret key and transport and no logger. -/
def exAgent (key : String) (t : RoundTripper Nat) : Agent Nat :=
  { SecretKey := key, Logger := none, Transport := some t }

/-- A starting world: the clock at 1600000000.123456789 s, no call made yet. -/
def exWorld : World Nat := { ext := 1600000000123456789, calls := [] }

/-- The record of `TestAgent_logRecords`, with fixed times. -/
def exRecord : ReportLog :=
  { Protocol := "https", Path := "/sample", Hostname := "api.example.com", Method := "GET"
    StartedAt := 1600000000043, EndedAt := 1600000000123, Type_ := "REQUEST_END"
    StatusCode := 200, URL := "http://api.example.com/sample"
    RequestHeaders := [("Accept", "application/json")], RequestBody := "\x7b\"body\":\"data\"\x7d"
    ResponseHeaders := [("Content-Type", "application/json")], ResponseBody := "\x7b\"ok\":true\x7d" }

/-! ## Maps as association lists -/

theorem GoMap.set_of_not_mem {V : Type} (m : List (String × V)) (k : String) (v : V)
    (h : k ∉ GoMap.keys m) : GoMap.set m k v = m ++ [(k, v)] := by
  induction m with
  | nil => rfl
  | cons kv rest ih =>
    obtain ⟨k', v'⟩ := kv
    simp only [GoMap.keys, List.map_cons, List.mem_cons, not_or] at h
    have hne : ¬ k' = k := fun e => h.1 e.symm
    simp only [GoMap.set, hne, if_false, List.cons_append]
    rw [ih (by simpa [GoMap.keys] using h.2)]

theorem GoMap.get_of_not_mem {V : Type} (m : List (String × V)) (k : String)
    (h : k ∉ GoMap.keys m) : GoMap.get m k = none := by
  induction m with
  | nil => rfl
  | cons kv rest ih =>
    obtain ⟨k', v'⟩ := kv
    simp only [GoMap.keys, List.map_cons, List.mem_cons, not_or] at h
    have hne : ¬ k' = k := fun e => h.1 e.symm
    simp only [GoMap.get, hne, if_false]
    exact ih (by simpa [GoMap.keys] using h.2)

theorem GoMap.get_of_mem {V : Type} (m : List (String × V)) (k : String) (v : V)
    (hwf : GoMap.WF m) (h : (k, v) ∈ m) : GoMap.get m k = some v := by
  induction m with
  | nil => cases h
  | cons kv rest ih =>
    obtain ⟨k', v'⟩ := kv
    simp only [GoMap.WF, GoMap.keys, List.map_cons, List.nodup_cons] at hwf
    rcases List.mem_cons.mp h with heq | hmem
    · cases heq
      simp [GoMap.get]
    · have hk : k ∈ rest.map Prod.fst := List.mem_map.mpr ⟨(k, v), hmem, rfl⟩
      have hne : ¬ k' = k := fun e => hwf.1 (e ▸ hk)
      simp only [GoMap.get, hne, if_false]
      exact ih hwf.2 hmem

/-! ## Header normalizer: the loop -/

theorem firstValues_keys (input : Header) :
    GoMap.keys (firstValues input) = GoMap.keys input := by
  simp [firstValues, GoMap.keys, List.map_map, Function.comp_def]

theorem goHeadersToBearerHeaders.loop_ok (input : Header) (ret : BearerHeaders)
    (hwf : GoMap.WF input) (hne : Header.AllNonempty input)
    (hdis : ∀ k ∈ GoMap.keys input, k ∉ GoMap.keys ret) :
    goHeadersToBearerHeaders.loop input ret = .ok (ret ++ firstValues input) := by
  induction input generalizing ret with
  | nil => simp [goHeadersToBearerHeaders.loop, firstValues]
  | cons kv rest ih =>
    obtain ⟨key, values⟩ := kv
    have hv : values ≠ [] := hne (key, values) (List.mem_cons_self _ _)
    simp only [GoMap.WF, GoMap.keys, List.map_cons, List.nodup_cons] at hwf
    cases values with
    | nil => exact absurd rfl hv
    | cons v vs =>
      have hk : key ∉ GoMap.keys ret := hdis key (by simp [GoMap.keys])
      simp only [goHeadersToBearerHeaders.loop, GoMap.set_of_not_mem ret key v hk]
      rw [ih (ret ++ [(key, v)]) hwf.2
        (fun kv h => hne kv (List.mem_cons_of_mem _ h))]
      · simp [firstValues]
      · intro k hkr hmem
        simp only [GoMap.keys, List.map_append, List.map_cons, List.map_nil,
          List.mem_append, List.mem_singleton] at hmem
        rcases hmem with h1 | h2
        · exact hdis k (by simp only [GoMap.keys, List.map_cons, List.mem_cons]; exact Or.inr hkr) h1
        · exact hwf.1 (h2 ▸ hkr)

theorem goHeadersToBearerHeaders.loop_error_iff (input : Header) (ret : BearerHeaders) :
    (∃ p, goHeadersToBearerHeaders.loop input ret = .error p) ↔ ∃ kv ∈ input, kv.2 = [] := by
  induction input generalizing ret with
  | nil => simp [goHeadersToBearerHeaders.loop]
  | cons kv rest ih =>
    obtain ⟨key, values⟩ := kv
    cases values with
    | nil => simp [goHeadersToBearerHeaders.loop]
    | cons v vs => simp [goHeadersToBearerHeaders.loop, ih]

theorem goHeadersToBearerHeaders.loop_error_eq (input : Header) (ret : BearerHeaders)
    (p : GoPanic) (h : goHeadersToBearerHeaders.loop input ret = .error p) :
    p = GoPanic.indexOutOfRange 0 0 := by
  induction input generalizing ret with
  | nil => simp [goHeadersToBearerHeaders.loop] at h
  | cons kv rest ih =>
    obtain ⟨key, values⟩ := kv
    cases values with
    | nil =>
      simp only [goHeadersToBearerHeaders.loop] at h
      cases h
      rfl
    | cons v vs =>
      simp only [goHeadersToBearerHeaders.loop] at h
      exact ih _ h

theorem goHeadersToBearerHeaders_ok (input : Header)
    (hwf : GoMap.WF input) (hne : Header.AllNonempty input) :
    goHeadersToBearerHeaders input = .ok (firstValues input) := by
  have h := goHeadersToBearerHeaders.loop_ok input [] hwf hne (by simp [GoMap.keys])
  simpa [goHeadersToBearerHeaders] using h

theorem goHeadersToBearerHeaders_isOk (input : Header) (hne : Header.AllNonempty input) :
    ∃ ret, goHeadersToBearerHeaders input = .ok ret := by
  cases h : goHeadersToBearerHeaders input with
  | ok ret => exact ⟨ret, rfl⟩
  | error p =>
    obtain ⟨kv, hmem, hnil⟩ :=
      (goHeadersToBearerHeaders.loop_error_iff input []).mp ⟨p, h⟩
    exact absurd hnil (hne kv hmem)

/-! ## Millisecond conversion -/

theorem tdiv_million_eq (x : Int) :
    Int.tdiv x 1000000 = if 0 ≤ x then x / 1000000 else -((-x) / 1000000) := by
  split
  · next h => exact Int.tdiv_eq_ediv h (by decide)
  · next h =>
    have h1 : (0 : Int) ≤ -x := by omega
    have h2 := Int.tdiv_eq_ediv h1 (show (0 : Int) ≤ 1000000 by decide)
    rw [Int.neg_tdiv] at h2
    omega

theorem tdiv_million_mono (x y : Int) (h : x ≤ y) :
    Int.tdiv x 1000000 ≤ Int.tdiv y 1000000 := by
  rw [tdiv_million_eq x, tdiv_million_eq y]
  split <;> split <;> omega

theorem wrapInt64_of_range (x : Int) (h1 : -2 ^ 63 ≤ x) (h2 : x < 2 ^ 63) :
    wrapInt64 x = x := by
  unfold wrapInt64
  omega

theorem unixMillis_of_range (x : Int) (h1 : -2 ^ 63 ≤ x) (h2 : x < 2 ^ 63) :
    unixMillis x = Int.tdiv x 1000000 := by
  unfold unixMillis
  apply wrapInt64_of_range
  · rw [tdiv_million_eq]; split <;> omega
  · rw [tdiv_million_eq]; split <;> omega

theorem unixMillis_mono (x y : Int) (hx1 : -2 ^ 63 ≤ x) (hx2 : x < 2 ^ 63)
    (hy1 : -2 ^ 63 ≤ y) (hy2 : y < 2 ^ 63) (h : x ≤ y) :
    unixMillis x ≤ unixMillis y := by
  rw [unixMillis_of_range x hx1 hx2, unixMillis_of_range y hy1 hy2]
  exact tdiv_million_mono x y h

/-! ## Shipper and interceptor: evaluation lemmas -/

theorem logRecords_of_ne_nil {σ : Type} (P : Platform σ) (a : Agent σ)
    (records : List ReportLog) (w : World σ) (hne : records ≠ []) :
    a.logRecords P records w =
      (logRecords.outcome (a.transport P (logsHTTPRequest P a records) w.ext).1,
        { ext := (a.transport P (logsHTTPRequest P a records) w.ext).2,
          calls := w.calls ++ [logsHTTPRequest P a records] }) := by
  have hlen : ¬ records.length < 1 := by
    cases records with
    | nil => exact absurd rfl hne
    | cons r rs => simp
  simp only [Agent.logRecords, hlen, if_false, World.roundTrip]
  rcases h : (a.transport P (logsHTTPRequest P a records) w.ext).1 with ⟨resp, err⟩
  cases resp <;> cases err <;> simp only [logRecords.outcome]
  next ret =>
    cases ret.Body with
    | none => rfl
    | some b => simp only []; split <;> rfl

theorem RoundTrip_of_empty_key {σ : Type} (P : Platform σ) (a : Agent σ) (req : Request)
    (w : World σ) (hkey : a.SecretKey = "") :
    a.RoundTrip P req w =
      (.ok (a.transport P req w.ext).1,
        { ext := (a.transport P req w.ext).2, calls := w.calls ++ [req] }) := by
  simp [Agent.RoundTrip, World.roundTrip, hkey]

theorem RoundTrip_of_nil_response {σ : Type} (P : Platform σ) (a : Agent σ) (req : Request)
    (w : World σ) (hkey : a.SecretKey ≠ "") (hnil : (a.transport P req w.ext).1.1 = none) :
    a.RoundTrip P req w =
      (.error GoPanic.nilDeref,
        { ext := (a.transport P req w.ext).2, calls := w.calls ++ [req] }) := by
  simp [Agent.RoundTrip, World.roundTrip, hkey, hnil]

theorem RoundTrip_of_response {σ : Type} (P : Platform σ) (a : Agent σ) (req : Request)
    (w : World σ) (resp : Response) (rh sh : BearerHeaders) (hkey : a.SecretKey ≠ "")
    (hresp : (a.transport P req w.ext).1.1 = some resp)
    (hrh : goHeadersToBearerHeaders req.Header = .ok rh)
    (hsh : goHeadersToBearerHeaders resp.Header = .ok sh) :
    a.RoundTrip P req w =
      match a.logRecords P
          [newRecord req resp (P.now w.ext).val (P.now (a.transport P req w.ext).2).val rh sh]
          (afterDelegate P a req w) with
      | (.error p, w2) => (.error p, w2)
      | (.ok (some err), w2) =>
        (.ok (a.transport P req w.ext).1, World.warn a.logger "log records" err w2)
      | (.ok none, w2) => (.ok (a.transport P req w.ext).1, w2) := by
  simp only [Agent.RoundTrip, World.roundTrip, hresp, hrh, hsh, afterDelegate]
  rw [if_pos hkey]

theorem RoundTrip_of_header_panic {σ : Type} (P : Platform σ) (a : Agent σ) (req : Request)
    (w : World σ) (resp : Response) (hkey : a.SecretKey ≠ "")
    (hresp : (a.transport P req w.ext).1.1 = some resp)
    (hpanic : (∃ kv ∈ req.Header, kv.2 = []) ∨ (∃ kv ∈ resp.Header, kv.2 = [])) :
    a.RoundTrip P req w = (.error (GoPanic.indexOutOfRange 0 0), afterDelegate P a req w) := by
  simp only [Agent.RoundTrip, World.roundTrip, hresp, afterDelegate]
  rw [if_pos hkey]
  cases hrh : goHeadersToBearerHeaders req.Header with
  | error p =>
    have hp := goHeadersToBearerHeaders.loop_error_eq req.Header [] p hrh
    simp [hp]
  | ok rh =>
    cases hsh : goHeadersToBearerHeaders resp.Header with
    | error p =>
      have hp := goHeadersToBearerHeaders.loop_error_eq resp.Header [] p hsh
      simp [hp]
    | ok sh =>
      exfalso
      rcases hpanic with h | h
      · obtain ⟨p, hp⟩ := (goHeadersToBearerHeaders.loop_error_iff req.Header []).mpr h
        rw [goHeadersToBearerHeaders] at hrh
        rw [hrh] at hp
        cases hp
      · obtain ⟨p, hp⟩ := (goHeadersToBearerHeaders.loop_error_iff resp.Header []).mpr h
        rw [goHeadersToBearerHeaders] at hsh
        rw [hsh] at hp
        cases hp

theorem logRecords_calls {σ : Type} (P : Platform σ) (a : Agent σ)
    (records : List ReportLog) (w : World σ) (hne : records ≠ []) :
    (a.logRecords P records w).2.calls = w.calls ++ [logsHTTPRequest P a records] := by
  rw [logRecords_of_ne_nil P a records w hne]

theorem logRecords_no_indexOutOfRange {σ : Type} (P : Platform σ) (a : Agent σ)
    (records : List ReportLog) (w : World σ) (i n : Nat) :
    (a.logRecords P records w).1 ≠ .error (GoPanic.indexOutOfRange i n) := by
  cases records with
  | nil => simp [Agent.logRecords]
  | cons r rs =>
    rw [logRecords_of_ne_nil P a (r :: rs) w (by simp)]
    rcases (a.transport P (logsHTTPRequest P a (r :: rs)) w.ext).1 with ⟨resp, err⟩
    cases resp <;> cases err <;> simp [logRecords.outcome]
    next ret =>
      cases ret.Body with
      | none => simp
      | some b => simp only []; split <;> simp

theorem RoundTrip_calls_of_response {σ : Type} (P : Platform σ) (a : Agent σ) (req : Request)
    (w : World σ) (resp : Response) (rh sh : BearerHeaders) (hkey : a.SecretKey ≠ "")
    (hresp : (a.transport P req w.ext).1.1 = some resp)
    (hrh : goHeadersToBearerHeaders req.Header = .ok rh)
    (hsh : goHeadersToBearerHeaders resp.Header = .ok sh) :
    (a.RoundTrip P req w).2.calls = w.calls ++ [req, logsHTTPRequest P a
      [newRecord req resp (P.now w.ext).val (P.now (a.transport P req w.ext).2).val rh sh]] := by
  rw [RoundTrip_of_response P a req w resp rh sh hkey hresp hrh hsh]
  have hc := logRecords_calls P a
    [newRecord req resp (P.now w.ext).val (P.now (a.transport P req w.ext).2).val rh sh]
    (afterDelegate P a req w) (by simp)
  split
  · next p w2 heq => rw [heq] at hc; simpa [afterDelegate] using hc
  · next err w2 heq => rw [heq] at hc; simpa [afterDelegate, World.warn] using hc
  · next w2 heq => rw [heq] at hc; simpa [afterDelegate] using hc

/-! ## Claims -/

/-- C1 (the code departs from it): with a non-empty secret key and a wrapped transport
that fails, returning no response and an error, `RoundTrip` does not return that failure:
the call ends in a nil-pointer panic at `resp.StatusCode`, after the one delegate call
and before any record is shipped. -/
theorem RoundTrip_transport_failure_with_key_panics {σ : Type} (P : Platform σ)
    (a : Agent σ) (req : Request) (w : World σ) (err : GoError)
    (hkey : a.SecretKey ≠ "")
    (hfail : (a.transport P req w.ext).1 = (none, some err))
    (_hreq : Header.AllNonempty req.Header) :
    a.RoundTrip P req w = (.error GoPanic.nilDeref, afterDelegate P a req w) ∧
      (a.RoundTrip P req w).1 ≠ .ok (none, some err) ∧
      (a.RoundTrip P req w).2.calls = w.calls ++ [req] := by
  have h := RoundTrip_of_nil_response P a req w hkey (by rw [hfail])
  refine ⟨by rw [h]; rfl, ?_, ?_⟩
  · rw [h]; simp
  · rw [h]

/-- Instance of C1: secret key "sk", a transport that refuses every connection, the request `GET https://api.example.com/sample`. -/
theorem RoundTrip_transport_failure_with_key_panics_witness :
    (exAgent "sk" exFailingTransport).SecretKey ≠ "" ∧
    ((exAgent "sk" exFailingTransport).transport exPlatform exRequest exWorld.ext).1 =
      (none, some (GoError.mk "connection refused")) ∧
    Header.AllNonempty exRequest.Header ∧
    ((exAgent "sk" exFailingTransport).RoundTrip exPlatform exRequest exWorld =
        (.error GoPanic.nilDeref,
          afterDelegate exPlatform (exAgent "sk" exFailingTransport) exRequest exWorld) ∧
      ((exAgent "sk" exFailingTransport).RoundTrip exPlatform exRequest exWorld).1 ≠
        .ok (none, some (GoError.mk "connection refused")) ∧
      ((exAgent "sk" exFailingTransport).RoundTrip exPlatform exRequest exWorld).2.calls =
        exWorld.calls ++ [exRequest]) :=
  ⟨by decide, rfl, by decide,
    RoundTrip_transport_failure_with_key_panics exPlatform (exAgent "sk" exFailingTransport)
      exRequest exWorld (GoError.mk "connection refused") (by decide) rfl (by decide)⟩

/-- C3: with an empty secret key `RoundTrip` is a passthrough: it calls the wrapped
transport once, with the caller's request, hands no other request to a transport, leaves
the outside world as that one call left it, and returns the pair the transport returned. -/
theorem RoundTrip_empty_key_passthrough {σ : Type} (P : Platform σ) (a : Agent σ)
    (req : Request) (w : World σ) (hkey : a.SecretKey = "") :
    (a.RoundTrip P req w).1 = .ok (a.transport P req w.ext).1 ∧
      (a.RoundTrip P req w).2.calls = w.calls ++ [req] ∧
      (a.RoundTrip P req w).2.ext = (a.transport P req w.ext).2 := by
  rw [RoundTrip_of_empty_key P a req w hkey]
  exact ⟨rfl, rfl, rfl⟩

/-- Instance of C3: empty secret key and a transport that refuses every connection. -/
theorem RoundTrip_empty_key_passthrough_witness :
    (exAgent "" exFailingTransport).SecretKey = "" ∧
    (((exAgent "" exFailingTransport).RoundTrip exPlatform exRequest exWorld).1 =
        .ok ((exAgent "" exFailingTransport).transport exPlatform exRequest exWorld.ext).1 ∧
      ((exAgent "" exFailingTransport).RoundTrip exPlatform exRequest exWorld).2.calls =
        exWorld.calls ++ [exRequest] ∧
      ((exAgent "" exFailingTransport).RoundTrip exPlatform exRequest exWorld).2.ext =
        ((exAgent "" exFailingTransport).transport exPlatform exRequest exWorld.ext).2) :=
  ⟨rfl, RoundTrip_empty_key_passthrough exPlatform (exAgent "" exFailingTransport)
    exRequest exWorld rfl⟩

/-- C4: for a header collection with pairwise different keys, each carrying one or more
values, `goHeadersToBearerHeaders` returns a map with the same keys, unchanged and each
once, in which every key is bound to the first value of its sequence; the empty
collection gives the empty map. -/
theorem goHeadersToBearerHeaders_first_value (input : Header)
    (hwf : GoMap.WF input) (hne : Header.AllNonempty input) :
    ∃ ret : BearerHeaders, goHeadersToBearerHeaders input = .ok ret ∧
      GoMap.WF ret ∧
      (∀ key, key ∈ GoMap.keys ret ↔ key ∈ GoMap.keys input) ∧
      (∀ key v rest, (key, v :: rest) ∈ input → GoMap.get ret key = some v) ∧
      (∀ key, GoMap.get input key = none → GoMap.get ret key = none) ∧
      (input = [] → ret = []) := by
  refine ⟨firstValues input, goHeadersToBearerHeaders_ok input hwf hne, ?_, ?_, ?_, ?_, ?_⟩
  · unfold GoMap.WF
    rw [firstValues_keys]
    exact hwf
  · intro key
    rw [firstValues_keys]
  · intro key v rest hmem
    apply GoMap.get_of_mem
    · unfold GoMap.WF
      rw [firstValues_keys]
      exact hwf
    · exact List.mem_map.mpr ⟨(key, v :: rest), hmem, rfl⟩
  · intro key hnone
    apply GoMap.get_of_not_mem
    rw [firstValues_keys]
    intro hk
    obtain ⟨kv, hkv, hfst⟩ := List.mem_map.mp hk
    obtain ⟨k, vs⟩ := kv
    cases hfst
    rw [GoMap.get_of_mem input k vs hwf hkv] at hnone
    cases hnone
  · intro h
    rw [h]
    rfl

/-- Instance of C4: two keys that differ only in case, the first with two values. -/
theorem goHeadersToBearerHeaders_first_value_witness :
    GoMap.WF [("Accept", ["application/json", "text/plain"]), ("accept", ["*/*"])] ∧
    Header.AllNonempty [("Accept", ["application/json", "text/plain"]), ("accept", ["*/*"])] ∧
    ∃ ret : BearerHeaders,
      goHeadersToBearerHeaders
        [("Accept", ["application/json", "text/plain"]), ("accept", ["*/*"])] = .ok ret ∧
      GoMap.WF ret ∧
      (∀ key, key ∈ GoMap.keys ret ↔
        key ∈ GoMap.keys [("Accept", ["application/json", "text/plain"]), ("accept", ["*/*"])]) ∧
      (∀ key v rest,
        (key, v :: rest) ∈ [("Accept", ["application/json", "text/plain"]), ("accept", ["*/*"])] →
        GoMap.get ret key = some v) ∧
      (∀ key,
        GoMap.get [("Accept", ["application/json", "text/plain"]), ("accept", ["*/*"])] key = none →
        GoMap.get ret key = none) ∧
      ([("Accept", ["application/json", "text/plain"]), ("accept", ["*/*"])] = [] → ret = []) :=
  ⟨by decide, by decide,
    goHeadersToBearerHeaders_first_value
      [("Accept", ["application/json", "text/plain"]), ("accept", ["*/*"])]
      (by decide) (by decide)⟩

/-- C5 as stated fails: with the secret key "sk" and a wrapped transport that succeeds
with status 200, a request whose header `X-Empty` carries no value makes `RoundTrip`
panic after the delegate call; the only request handed to the transport is the caller's,
so no record is shipped. -/
theorem RoundTrip_ships_nothing_on_valueless_header :
    (exAgent "sk" (exTransport (some ⟨200, [], some ""⟩, none))).SecretKey ≠ "" ∧
    ((exAgent "sk" (exTransport (some ⟨200, [], some ""⟩, none))).transport exPlatform
        exRequestEmptyValues exWorld.ext).1 = (some exResponse, none) ∧
    ((exAgent "sk" (exTransport (some ⟨200, [], some ""⟩, none))).RoundTrip exPlatform
        exRequestEmptyValues exWorld).1 = .error (GoPanic.indexOutOfRange 0 0) ∧
    ((exAgent "sk" (exTransport (some ⟨200, [], some ""⟩, none))).RoundTrip exPlatform
        exRequestEmptyValues exWorld).2.calls = [exRequestEmptyValues] :=
  ⟨by decide, rfl, rfl, rfl⟩

/-- C5 (amended): with a non-empty secret key, a wrapped transport that succeeds, and
request and response headers in which every key has at least one value, `RoundTrip`
hands exactly two requests to the transport: the caller's request and then one POST to
the logs endpoint whose body is the marshalled envelope with exactly one record. That
record takes protocol, path, hostname, method and url from the request, the status code
from the response, has type "REQUEST_END", the normalized request and response headers,
and empty request and response bodies. -/
theorem RoundTrip_ships_one_record {σ : Type} (P : Platform σ) (a : Agent σ)
    (req : Request) (w : World σ) (resp : Response)
    (hkey : a.SecretKey ≠ "")
    (hok : (a.transport P req w.ext).1 = (some resp, none))
    (hreq : Header.AllNonempty req.Header) (hresp : Header.AllNonempty resp.Header) :
    ∃ (record : ReportLog) (logsReq : Request),
      (a.RoundTrip P req w).2.calls = w.calls ++ [req, logsReq] ∧
      logsReq.Method = "POST" ∧
      logsReq.URL.String = "https://agent.bearer.sh/logs" ∧
      logsReq.Body = P.jsonMarshal
        { SecretKey := a.SecretKey
          Runtime := { Type_ := "go", Version := P.runtimeVersion }
          Agent := { Type_ := "bearer-go", Version := P.Version, LogLevel := "ALL" }
          Logs := [record] } ∧
      record.Protocol = req.URL.Scheme ∧
      record.Path = req.URL.Path ∧
      record.Hostname = req.URL.Hostname ∧
      record.Method = req.Method ∧
      record.URL = req.URL.String ∧
      record.StatusCode = resp.StatusCode ∧
      record.Type_ = "REQUEST_END" ∧
      goHeadersToBearerHeaders req.Header = .ok record.RequestHeaders ∧
      goHeadersToBearerHeaders resp.Header = .ok record.ResponseHeaders ∧
      record.RequestBody = "" ∧
      record.ResponseBody = "" := by
  obtain ⟨rh, hrh⟩ := goHeadersToBearerHeaders_isOk req.Header hreq
  obtain ⟨sh, hsh⟩ := goHeadersToBearerHeaders_isOk resp.Header hresp
  have h1 : (a.transport P req w.ext).1.1 = some resp := by rw [hok]
  exact ⟨newRecord req resp (P.now w.ext).val (P.now (a.transport P req w.ext).2).val rh sh,
    _, RoundTrip_calls_of_response P a req w resp rh sh hkey h1 hrh hsh,
    rfl, rfl, rfl, rfl, rfl, rfl, rfl, rfl, rfl, rfl, hrh, hsh, rfl, rfl⟩

/-- Instance of C5 (amended): `GET https://api.example.com/sample` answered 200 with header `Hello: World`; the two requests handed to the transport are spelled out. -/
theorem RoundTrip_ships_one_record_witness :
    (exAgent "sk" (exTransport (some ⟨200, [], some ""⟩, none))).SecretKey ≠ "" ∧
    ((exAgent "sk" (exTransport (some ⟨200, [], some ""⟩, none))).transport exPlatform
        exRequest exWorld.ext).1 = (some exResponse, none) ∧
    Header.AllNonempty exRequest.Header ∧ Header.AllNonempty exResponse.Header ∧
    ((exAgent "sk" (exTransport (some ⟨200, [], some ""⟩, none))).RoundTrip exPlatform
        exRequest exWorld).2.calls =
      [exRequest,
        { Method := "POST"
          URL := { Scheme := "https", Path := "/logs", Hostname := "agent.bearer.sh",
                   String := "https://agent.bearer.sh/logs" }
          Header := [("Accept", ["application/json"]), ("Content-Type", ["application/json"])]
          Body := exPlatform.jsonMarshal
            { SecretKey := "sk"
              Runtime := { Type_ := "go", Version := "go1.15" }
              Agent := { Type_ := "bearer-go", Version := "0.1.0", LogLevel := "ALL" }
              Logs :=
                [{ Protocol := "https", Path := "/sample", Hostname := "api.example.com"
                   Method := "GET", StartedAt := 1600000000123, EndedAt := 1600000000203
                   Type_ := "REQUEST_END", StatusCode := 200
                   URL := "https://api.example.com/sample"
                   RequestHeaders := [("Accept", "application/json")], RequestBody := ""
                   ResponseHeaders := [("Hello", "World")], ResponseBody := "" }] } }] ∧
    ∃ (record : ReportLog) (logsReq : Request),
      ((exAgent "sk" (exTransport (some ⟨200, [], some ""⟩, none))).RoundTrip exPlatform
        exRequest exWorld).2.calls = exWorld.calls ++ [exRequest, logsReq] ∧
      logsReq.Method = "POST" ∧
      logsReq.URL.String = "https://agent.bearer.sh/logs" ∧
      logsReq.Body = exPlatform.jsonMarshal
        { SecretKey := (exAgent "sk" (exTransport (some ⟨200, [], some ""⟩, none))).SecretKey
          Runtime := { Type_ := "go", Version := exPlatform.runtimeVersion }
          Agent := { Type_ := "bearer-go", Version := exPlatform.Version, LogLevel := "ALL" }
          Logs := [record] } ∧
      record.Protocol = exRequest.URL.Scheme ∧
      record.Path = exRequest.URL.Path ∧
      record.Hostname = exRequest.URL.Hostname ∧
      record.Method = exRequest.Method ∧
      record.URL = exRequest.URL.String ∧
      record.StatusCode = exResponse.StatusCode ∧
      record.Type_ = "REQUEST_END" ∧
      goHeadersToBearerHeaders exRequest.Header = .ok record.RequestHeaders ∧
      goHeadersToBearerHeaders exResponse.Header = .ok record.ResponseHeaders ∧
      record.RequestBody = "" ∧
      record.ResponseBody = "" :=
  ⟨by decide, rfl, by decide, by decide, rfl,
    RoundTrip_ships_one_record exPlatform (exAgent "sk" (exTransport (some ⟨200, [], some ""⟩, none)))
      exRequest exWorld exResponse (by decide) rfl (by decide) (by decide)⟩

/-- C6 as stated fails: a collector reply with status 200 and a nil `Body` makes
`logRecords` panic at `defer ret.Body.Close()`; the call completed with status 200 and
`logRecords` does not return success. -/
theorem logRecords_panics_on_bodiless_200 :
    [exRecord] ≠ [] ∧
    ((exAgent "sk" (exTransport (some ⟨200, [], none⟩, none))).transport exPlatform
        (logsHTTPRequest exPlatform (exAgent "sk" (exTransport (some ⟨200, [], none⟩, none)))
          [exRecord]) exWorld.ext).1 = (some ⟨200, [], none⟩, none) ∧
    ((exAgent "sk" (exTransport (some ⟨200, [], none⟩, none))).logRecords exPlatform
        [exRecord] exWorld).1 = .error GoPanic.nilDeref ∧
    ((exAgent "sk" (exTransport (some ⟨200, [], none⟩, none))).logRecords exPlatform
        [exRecord] exWorld).1 ≠ .ok none :=
  ⟨by decide, rfl, rfl,
    fun h => Except.noConfusion (h : Except.error GoPanic.nilDeref = Except.ok _)⟩

/-- C6 (amended): on a non-empty sequence of records `logRecords` hands exactly one
request to the transport; it returns nil exactly when that call returns a nil error and a
response with status 200 that carries a body (the content of the body is not read); on a
response with another status N that carries a body, and a nil error, it returns the
error "unsupported status code: N"; on a transport error it returns that error wrapped
as "perform logs request: ...". -/
theorem logRecords_result {σ : Type} (P : Platform σ) (a : Agent σ)
    (records : List ReportLog) (w : World σ) (hne : records ≠ []) :
    (a.logRecords P records w).2.calls = w.calls ++ [logsHTTPRequest P a records] ∧
    (a.logRecords P records w).2.ext =
      (a.transport P (logsHTTPRequest P a records) w.ext).2 ∧
    ((a.logRecords P records w).1 = .ok none ↔
      ∃ ret : Response,
        (a.transport P (logsHTTPRequest P a records) w.ext).1 = (some ret, none) ∧
        ret.Body ≠ none ∧ ret.StatusCode = 200) ∧
    (∀ ret : Response,
      (a.transport P (logsHTTPRequest P a records) w.ext).1 = (some ret, none) →
      ret.Body ≠ none → ret.StatusCode ≠ 200 →
      (a.logRecords P records w).1 =
        .ok (some (GoError.mk ("unsupported status code: " ++ toString ret.StatusCode)))) ∧
    (∀ (ret : Option Response) (err : GoError),
      (a.transport P (logsHTTPRequest P a records) w.ext).1 = (ret, some err) →
      (a.logRecords P records w).1 = .ok (some (GoError.wrap "perform logs request" err))) := by
  rw [logRecords_of_ne_nil P a records w hne]
  refine ⟨rfl, rfl, ?_, ?_, ?_⟩
  · rcases (a.transport P (logsHTTPRequest P a records) w.ext).1 with ⟨r1, r2⟩
    cases r1 <;> cases r2 <;> simp [logRecords.outcome]
    next ret =>
      cases ret.Body with
      | none => simp
      | some b =>
        simp only []
        split <;> simp_all
  · intro ret hret hbody hstatus
    cases hb : ret.Body with
    | none => exact absurd hb hbody
    | some b => simp [hret, logRecords.outcome, hb, hstatus]
  · intro ret err hret
    simp [hret, logRecords.outcome]

/-- Instance of C6 (amended): an agent without secret key and a collector that answers 401 with an empty body, as in `TestAgent_logRecords/unauthenticated`. -/
theorem logRecords_result_witness :
    [exRecord] ≠ [] ∧
    ((exAgent "" (exTransport (some ⟨401, [], some ""⟩, none))).logRecords exPlatform
        [exRecord] exWorld).1 = .ok (some (GoError.mk "unsupported status code: 401")) ∧
    ((exAgent "" (exTransport (some ⟨401, [], some ""⟩, none))).logRecords exPlatform
        [exRecord] exWorld).2.calls =
      exWorld.calls ++
        [logsHTTPRequest exPlatform
          (exAgent "" (exTransport (some ⟨401, [], some ""⟩, none))) [exRecord]] :=
  ⟨by decide, rfl,
    (logRecords_result exPlatform (exAgent "" (exTransport (some ⟨401, [], some ""⟩, none)))
      [exRecord] exWorld (by decide)).1⟩

/-- C7: on an empty sequence of records `logRecords` returns nil and leaves the world
untouched: no request is handed to the transport. -/
theorem logRecords_empty {σ : Type} (P : Platform σ) (a : Agent σ) (w : World σ) :
    a.logRecords P [] w = (.ok none, w) := by
  simp [Agent.logRecords]

/-- C8: on a non-empty sequence of records the one request `logRecords` hands to the
transport is a POST to https://agent.bearer.sh/logs whose headers are exactly
`Accept: application/json` and `Content-Type: application/json` (no `Authorization`),
and whose body is the marshalled envelope with the agent's secret key, runtime type
"go", agent type "bearer-go", the package version, log level "ALL" and the input records
unchanged. -/
theorem logRecords_request {σ : Type} (P : Platform σ) (a : Agent σ)
    (records : List ReportLog) (w : World σ) (hne : records ≠ []) :
    (a.logRecords P records w).2.calls = w.calls ++
      [{ Method := "POST"
         URL := { Scheme := "https", Path := "/logs", Hostname := "agent.bearer.sh",
                  String := "https://agent.bearer.sh/logs" }
         Header := [("Accept", ["application/json"]), ("Content-Type", ["application/json"])]
         Body := P.jsonMarshal
           { SecretKey := a.SecretKey
             Runtime := { Type_ := "go", Version := P.runtimeVersion }
             Agent := { Type_ := "bearer-go", Version := P.Version, LogLevel := "ALL" }
             Logs := records } }] ∧
    GoMap.get (logsHTTPRequest P a records).Header "Authorization" = none ∧
    GoMap.get (logsHTTPRequest P a records).Header "Accept" = some ["application/json"] ∧
    GoMap.get (logsHTTPRequest P a records).Header "Content-Type" =
      some ["application/json"] ∧
    (logsInput P a records).Logs = records ∧
    (logsInput P a records).Logs.length = records.length := by
  rw [logRecords_calls P a records w hne]
  exact ⟨rfl, rfl, rfl, rfl, rfl, rfl⟩

/-- Instance of C8: one record and the secret key "sk"; the request handed to the transport is spelled out. -/
theorem logRecords_request_witness :
    [exRecord] ≠ [] ∧
    ((exAgent "sk" exFailingTransport).logRecords exPlatform [exRecord] exWorld).2.calls =
      [{ Method := "POST"
         URL := { Scheme := "https", Path := "/logs", Hostname := "agent.bearer.sh",
                  String := "https://agent.bearer.sh/logs" }
         Header := [("Accept", ["application/json"]), ("Content-Type", ["application/json"])]
         Body := exPlatform.jsonMarshal
           { SecretKey := "sk"
             Runtime := { Type_ := "go", Version := "go1.15" }
             Agent := { Type_ := "bearer-go", Version := "0.1.0", LogLevel := "ALL" }
             Logs := [exRecord] } }] :=
  ⟨by decide,
    (logRecords_request exPlatform (exAgent "sk" exFailingTransport) [exRecord] exWorld
      (by decide)).1⟩

/-- C9: when `RoundTrip` builds a record (non-empty secret key, a response from the
delegate, every header key with at least one value) and the clock reading after the
delegate call is not earlier than the one before it, the record shipped has
`StartedAt` and `EndedAt` equal to the readings divided by 1000000 with truncation, and
`EndedAt ≥ StartedAt`: the conversion to milliseconds is monotone on `int64` readings. -/
theorem RoundTrip_record_endedAt_ge_startedAt {σ : Type} (P : Platform σ) (a : Agent σ)
    (req : Request) (w : World σ) (resp : Response)
    (hkey : a.SecretKey ≠ "")
    (hresp : (a.transport P req w.ext).1.1 = some resp)
    (hreqH : Header.AllNonempty req.Header) (hrespH : Header.AllNonempty resp.Header)
    (hclock : (P.now w.ext).val ≤ (P.now (a.transport P req w.ext).2).val) :
    (∃ record : ReportLog,
      (a.RoundTrip P req w).2.calls = w.calls ++ [req, logsHTTPRequest P a [record]] ∧
      record.StartedAt = Int.tdiv (P.now w.ext).val 1000000 ∧
      record.EndedAt = Int.tdiv (P.now (a.transport P req w.ext).2).val 1000000 ∧
      record.EndedAt ≥ record.StartedAt) ∧
    (∀ x y : Int, -2 ^ 63 ≤ x → x ≤ y → y < 2 ^ 63 → unixMillis x ≤ unixMillis y) := by
  obtain ⟨rh, hrh⟩ := goHeadersToBearerHeaders_isOk req.Header hreqH
  obtain ⟨sh, hsh⟩ := goHeadersToBearerHeaders_isOk resp.Header hrespH
  have hs := (P.now w.ext).property
  have he := (P.now (a.transport P req w.ext).2).property
  refine ⟨⟨newRecord req resp (P.now w.ext).val (P.now (a.transport P req w.ext).2).val rh sh,
    RoundTrip_calls_of_response P a req w resp rh sh hkey hresp hrh hsh,
    unixMillis_of_range _ hs.1 hs.2, unixMillis_of_range _ he.1 he.2,
    unixMillis_mono _ _ hs.1 hs.2 he.1 he.2 hclock⟩, ?_⟩
  intro x y hx hxy hy
  exact unixMillis_mono x y hx (by omega) (by omega) hy hxy

/-- Instance of C9: the clock reads 1600000000.123456789 s before the delegate call and 80 ms more after it. -/
theorem RoundTrip_record_endedAt_ge_startedAt_witness :
    (exAgent "sk" (exTransport (some ⟨200, [], some ""⟩, none))).SecretKey ≠ "" ∧
    ((exAgent "sk" (exTransport (some ⟨200, [], some ""⟩, none))).transport exPlatform
        exRequest exWorld.ext).1.1 = some exResponse ∧
    Header.AllNonempty exRequest.Header ∧ Header.AllNonempty exResponse.Header ∧
    (exPlatform.now exWorld.ext).val ≤
      (exPlatform.now ((exAgent "sk" (exTransport (some ⟨200, [], some ""⟩, none))).transport
        exPlatform exRequest exWorld.ext).2).val ∧
    ∃ record : ReportLog,
      ((exAgent "sk" (exTransport (some ⟨200, [], some ""⟩, none))).RoundTrip exPlatform
        exRequest exWorld).2.calls = exWorld.calls ++ [exRequest,
          logsHTTPRequest exPlatform (exAgent "sk" (exTransport (some ⟨200, [], some ""⟩, none)))
            [record]] ∧
      record.StartedAt = Int.tdiv (exPlatform.now exWorld.ext).val 1000000 ∧
      record.EndedAt = Int.tdiv (exPlatform.now ((exAgent "sk"
        (exTransport (some ⟨200, [], some ""⟩, none))).transport exPlatform exRequest
          exWorld.ext).2).val 1000000 ∧
      record.EndedAt ≥ record.StartedAt :=
  ⟨by decide, rfl, by decide, by decide, by decide,
    (RoundTrip_record_endedAt_ge_startedAt exPlatform
      (exAgent "sk" (exTransport (some ⟨200, [], some ""⟩, none))) exRequest exWorld exResponse
      (by decide) rfl (by decide) (by decide) (by decide)).1⟩

/-- C10: `goHeadersToBearerHeaders` panics with an index out of range exactly when some
key of the collection carries no value. With a non-empty secret key and a response from
the delegate, `RoundTrip` ends in that panic exactly when some key of the request
headers or of the response headers carries no value; the panic comes after the delegate
call, nothing is shipped, and the response of the delegate is not returned. -/
theorem goHeadersToBearerHeaders_panics_iff {σ : Type} (input : Header) (P : Platform σ)
    (a : Agent σ) (req : Request) (w : World σ) (resp : Response)
    (hkey : a.SecretKey ≠ "")
    (hresp : (a.transport P req w.ext).1.1 = some resp) :
    (goHeadersToBearerHeaders input = .error (GoPanic.indexOutOfRange 0 0) ↔
      ∃ kv ∈ input, kv.2 = []) ∧
    ((∃ ret, goHeadersToBearerHeaders input = .ok ret) ↔ Header.AllNonempty input) ∧
    ((a.RoundTrip P req w).1 = .error (GoPanic.indexOutOfRange 0 0) ↔
      (∃ kv ∈ req.Header, kv.2 = []) ∨ (∃ kv ∈ resp.Header, kv.2 = [])) ∧
    ((a.RoundTrip P req w).1 = .error (GoPanic.indexOutOfRange 0 0) →
      (a.RoundTrip P req w).2.calls = w.calls ++ [req] ∧
      (a.RoundTrip P req w).2.ext = (a.transport P req w.ext).2) := by
  have hiff : ∀ h : Header, goHeadersToBearerHeaders h = .error (GoPanic.indexOutOfRange 0 0) ↔
      ∃ kv ∈ h, kv.2 = [] := by
    intro h
    constructor
    · intro he
      exact (goHeadersToBearerHeaders.loop_error_iff h []).mp ⟨_, he⟩
    · intro hex
      obtain ⟨p, hp⟩ := (goHeadersToBearerHeaders.loop_error_iff h []).mpr hex
      have := goHeadersToBearerHeaders.loop_error_eq h [] p hp
      rw [goHeadersToBearerHeaders, hp, this]
  have hrt : (a.RoundTrip P req w).1 = .error (GoPanic.indexOutOfRange 0 0) ↔
      (∃ kv ∈ req.Header, kv.2 = []) ∨ (∃ kv ∈ resp.Header, kv.2 = []) := by
    constructor
    · intro hpanic
      by_contra hnot
      have hreqH : Header.AllNonempty req.Header := by
        intro kv hmem hnil
        exact hnot (Or.inl ⟨kv, hmem, hnil⟩)
      have hrespH : Header.AllNonempty resp.Header := by
        intro kv hmem hnil
        exact hnot (Or.inr ⟨kv, hmem, hnil⟩)
      obtain ⟨rh, hrh⟩ := goHeadersToBearerHeaders_isOk req.Header hreqH
      obtain ⟨sh, hsh⟩ := goHeadersToBearerHeaders_isOk resp.Header hrespH
      rw [RoundTrip_of_response P a req w resp rh sh hkey hresp hrh hsh] at hpanic
      have hno := logRecords_no_indexOutOfRange P a
        [newRecord req resp (P.now w.ext).val (P.now (a.transport P req w.ext).2).val rh sh]
        (afterDelegate P a req w) 0 0
      split at hpanic
      · next p w2 heq =>
        rw [heq] at hno
        have hp : p = GoPanic.indexOutOfRange 0 0 := by
          simpa using hpanic
        exact hno (by rw [hp])
      · cases hpanic
      · cases hpanic
    · intro h
      rw [RoundTrip_of_header_panic P a req w resp hkey hresp h]
  refine ⟨hiff input, ?_, hrt, ?_⟩
  · constructor
    · rintro ⟨ret, hret⟩ kv hmem hnil
      rw [(hiff input).mpr ⟨kv, hmem, hnil⟩] at hret
      cases hret
    · exact goHeadersToBearerHeaders_isOk input
  · intro hpanic
    rw [RoundTrip_of_header_panic P a req w resp hkey hresp (hrt.mp hpanic)]
    exact ⟨rfl, rfl⟩

/-- Instance of C10: the header key `X-Empty` carries no value. -/
theorem goHeadersToBearerHeaders_panics_iff_witness :
    (exAgent "sk" (exTransport (some ⟨200, [], some ""⟩, none))).SecretKey ≠ "" ∧
    ((exAgent "sk" (exTransport (some ⟨200, [], some ""⟩, none))).transport exPlatform
        exRequestEmptyValues exWorld.ext).1.1 = some exResponse ∧
    goHeadersToBearerHeaders [("Accept", ["application/json"]), ("X-Empty", [])] =
      .error (GoPanic.indexOutOfRange 0 0) ∧
    ((exAgent "sk" (exTransport (some ⟨200, [], some ""⟩, none))).RoundTrip exPlatform
        exRequestEmptyValues exWorld).1 = .error (GoPanic.indexOutOfRange 0 0) :=
  ⟨by decide, rfl,
    (goHeadersToBearerHeaders_panics_iff [("Accept", ["application/json"]), ("X-Empty", [])]
      exPlatform (exAgent "sk" (exTransport (some ⟨200, [], some ""⟩, none))) exRequestEmptyValues
      exWorld exResponse (by decide) rfl).1.mpr ⟨("X-Empty", []), by decide, rfl⟩,
    (goHeadersToBearerHeaders_panics_iff [("Accept", ["application/json"]), ("X-Empty", [])]
      exPlatform (exAgent "sk" (exTransport (some ⟨200, [], some ""⟩, none))) exRequestEmptyValues
      exWorld exResponse (by decide) rfl).2.2.1.mpr
        (Or.inl ⟨("X-Empty", []), by decide, rfl⟩)⟩

end Bearer
